import Mathlib

/-!
Verification development for the LPU compilation-and-stepping engine
(`src/neurokernel/LPU/LPU.py`).

The definitions below are shallow embeddings of the corresponding Python
code; each definition's doc comment points at the source lines it embeds.
Machine floats that only ever hold exact small values (delays, `dt`,
frame data) are modelled as rationals or integers.  Theorems named
`C1_*` .. `C10_*` settle the frozen specification claims.
-/

namespace LPU

/-! ### Neuron layout (`LPU.__init__`, lines 382-511) -/

/-- One entry of `n_list` (line 384): the model name, the original graph IDs
of its instances (the column `n['id']`), the model's spiking flag (the code
reads `n['spiking'][0]`, line 388), and the per-instance `extern` flags
(line 402).  Other per-model columns are not consulted by the claims. -/
structure NeuronModel where
  name : String
  ids : List Nat
  spiking : Bool
  externFlags : List Bool

/-- The array `gpot_idx = n_id[~n_is_spk]` (line 474): original IDs of all
neurons belonging to non-spiking models, in model order. -/
def gpotIdx (nl : List NeuronModel) : List Nat :=
  ((nl.filter (fun m => !m.spiking)).map NeuronModel.ids).flatten

/-- The array `spike_idx = n_id[n_is_spk]` (line 475). -/
def spikeIdx (nl : List NeuronModel) : List Nat :=
  ((nl.filter (fun m => m.spiking)).map NeuronModel.ids).flatten

/-- The array `idx = np.concatenate((gpot_idx, spike_idx))` (line 476):
the original ID stored at each packed position. -/
def idxList (nl : List NeuronModel) : List Nat :=
  gpotIdx nl ++ spikeIdx nl

/-- The mapping `order_dict[id] = i` for `i, id in enumerate(idx)`
(lines 479-481): packed position of an original neuron ID. -/
def orderPos (nl : List NeuronModel) (id : Nat) : Nat :=
  (idxList nl).indexOf id

/-- The mapping `gpot_order_dict` (lines 485-487). -/
def gpotOrderPos (nl : List NeuronModel) (id : Nat) : Nat :=
  (gpotIdx nl).indexOf id

/-- The mapping `spike_order_dict` (lines 491-493). -/
def spikeOrderPos (nl : List NeuronModel) (id : Nat) : Nat :=
  (spikeIdx nl).indexOf id

/-- The array `n_id` (lines 395-396): concatenation of the per-model `id`
columns in model order. -/
def nId (nl : List NeuronModel) : List Nat :=
  (nl.map NeuronModel.ids).flatten

/-- The quantity `self.nid_max = np.max(n_id) + 1` (line 525). -/
def nidMax (nl : List NeuronModel) : Nat :=
  (nId nl).foldr max 0 + 1

/-! ### Synapse `post` resolution (`LPU.__init__`, lines 527-538) -/

/-- A raw `post` field of a synapse record: either a neuron's original ID or
another synapse (string convention `synapse-<id>` in the source). -/
inductive PostRef where
  | neuron (nid : Nat)
  | synapse (sid : Nat)
deriving DecidableEq

/-- Resolution of a `post` target (lines 536-538): a neuron target is mapped
through `self.order`, a synapse target becomes `int(nid[8:]) + self.nid_max`. -/
def resolvePost (nl : List NeuronModel) : PostRef → Nat
  | PostRef.neuron nid => orderPos nl nid
  | PostRef.synapse sid => sid + nidMax nl

/-! ### Synapse models and delay sizing (`LPU.__init__`, lines 512-575, 671-672) -/

/-- One synapse instance (row view of the `s_dict` columns used by the
claims): `id`, `class`, `conductance`, `delay` (milliseconds), `pre` and
`post`.  The `reverse` column is not consulted by any claim. -/
structure SynRecord where
  id : Nat
  cls : Nat
  conductance : Bool
  delay : ℚ
  pre : Nat
  post : PostRef

/-- One entry of `s_list`: model name, whether the model carries a `delay`
column (`'delay' in s`, lines 558, 570), and its synapse instances. -/
structure SynModel where
  name : String
  hasDelay : Bool
  syns : List SynRecord

/-- The value `np.max` of a nonempty list of rationals; the empty case is
unreachable in the guarded callers (the code tests `len(idx) > 0` first). -/
def qListMax : List ℚ → ℚ
  | [] => 0
  | a :: t => t.foldl max a

/-- One iteration of the running-maximum update for delay steps
(lines 550-561 for the conductance subset `p`, lines 563-573 for the
current subset): if the model has any synapse selected by `p` and carries a
`delay` column, the running maximum absorbs `np.max(s['delay'][idx])`. -/
def delayFoldStep (p : SynRecord → Bool) (acc : ℚ) (s : SynModel) : ℚ :=
  if 0 < ((s.syns.filter p).map SynRecord.delay).length ∧ s.hasDelay then
    max (qListMax ((s.syns.filter p).map SynRecord.delay)) acc
  else acc

/-- The accumulated `gpot_delay_steps` value before conversion (lines 512,
550-561): maximum `delay` over all conductance-based synapses. -/
def gpotDelayMs (sl : List SynModel) : ℚ :=
  sl.foldl (delayFoldStep (fun r => r.conductance)) 0

/-- The accumulated `spike_delay_steps` value before conversion (lines 513,
563-573): maximum `delay` over all current-based synapses. -/
def spikeDelayMs (sl : List SynModel) : ℚ :=
  sl.foldl (delayFoldStep (fun r => !r.conductance)) 0

/-- The final graded buffer depth
`int(round(gpot_delay_steps*1e-3/self.dt)) + 1` (line 671).  For the
nonnegative arguments that occur here, Python 2 `round` agrees with
Mathlib's `round` (both round half up for nonnegative input). -/
def gpotDelaySteps (sl : List SynModel) (dt : ℚ) : ℤ :=
  round (gpotDelayMs sl * (1 / 1000) / dt) + 1

/-- The final spiking buffer depth
`int(round(spike_delay_steps*1e-3/self.dt)) + 1` (line 672). -/
def spikeDelaySteps (sl : List SynModel) (dt : ℚ) : ℤ :=
  round (spikeDelayMs sl * (1 / 1000) / dt) + 1

/-- Modelled from the claim's words (C4), for comparison with the code:
the maximum `delay` among the synapses feeding the spiking state kind,
taken here as the synapses whose presynaptic source is spiking
(`class` 0 or 1).  The counterexample below uses `class = 0`
(spike-to-spike), so it also refutes the reading in which a synapse feeds
the kind of its postsynaptic target. -/
def claimSpikeMaxDelayMs (sl : List SynModel) : ℚ :=
  qListMax
    (((sl.map SynModel.syns).flatten.filter (fun r => decide (r.cls ≤ 1))).map
      SynRecord.delay)

/-- Modelled from the claim's words (C4): spiking-side buffer depth
`round(max_delay_ms / dt) + 1` with the kind-based maximum. -/
def claimSpikeDepth (sl : List SynModel) (dt : ℚ) : ℤ :=
  round (claimSpikeMaxDelayMs sl * (1 / 1000) / dt) + 1

/-! ### Synapse-state array size (`_initialize_gpu_ds`, lines 834-836) -/

/-- The quantity `self.total_synapses` (lines 526, 575): the summed lengths
of the per-model `id` columns. -/
def totalSynapses (sl : List SynModel) : Nat :=
  (sl.map (fun s => s.syns.length)).sum

/-- The length of `self.input_neuron_list` (lines 496-507): the number of
neurons whose `extern` flag is set. -/
def numInputNeurons (nl : List NeuronModel) : Nat :=
  ((nl.map NeuronModel.externFlags).flatten.count true)

/-- The allocation length of `self.synapse_state` (lines 834-836):
`max(int(self.total_synapses) + len(self.input_neuron_list), 1)`. -/
def synapseStateLen (nl : List NeuronModel) (sl : List SynModel) : Nat :=
  max (totalSynapses sl + numInputNeurons nl) 1

/-! ### Circular delay buffer (`CircularArray.step`, lines 1249-1262) -/

/-- Cursor advance for one state kind of `CircularArray.step`
(lines 1254-1257 for the graded kind, 1259-1262 for the spiking kind):
if the kind has any neurons, the cursor is incremented and reset to zero
upon reaching the depth. -/
def circStep (numNeurons depth cursor : Nat) : Nat :=
  if 0 < numNeurons then
    if depth ≤ cursor + 1 then 0 else cursor + 1
  else cursor

/-! ### Per-tick step engine (`pre_run` lines 695-699, `run_step` lines 724-746) -/

/-- Construction-time configuration visible to `run_step`.  The opaque
`evalV` stands for the combined effect of the neuron model updates on the
packed graded state; `portData`/`portInds` are `self.pm['gpot'].data` and
`self.inds_gpot`.  The spiking gather path (lines 881-885) is structurally
identical to the graded one and is not duplicated here. -/
structure StepConfig where
  numNeurons : Nat
  numSynapses : Nat
  numGpot : Nat
  gpotDepth : Nat
  numSpike : Nat
  spikeDepth : Nat
  hasGpotInputPorts : Bool
  gpotPortStart : Nat
  numGpotPortInds : Nat
  portData : Nat → ℚ
  portInds : Nat → Nat
  evalV : (Nat → ℚ) → Nat → ℚ

/-- Mutable per-tick state: the `first_step` flag set by `pre_run`
(line 699), the packed graded state `self.V`, and the two buffer cursors. -/
structure StepState where
  firstStep : Bool
  V : Nat → ℚ
  gpotCursor : Nat
  spikeCursor : Nat

/-- Result of one `run_step` call, with the bookkeeping the claims are
about: which neuron/synapse model instances were evaluated this tick and
whether the delay buffer advanced. -/
structure TickTrace where
  state : StepState
  neuronEvals : List Nat
  synapseEvals : List Nat
  bufferAdvanced : Bool

/-- The gather kernel of `set_inds` (lines 887-901):
`dest[i + dest_shift] = src[inds[i]]` for `0 ≤ i < len(inds)`. -/
def setInds (src : Nat → ℚ) (inds : Nat → Nat) (n : Nat) (shift : Nat)
    (dest : Nat → ℚ) : Nat → ℚ :=
  fun j => if shift ≤ j ∧ j < shift + n then src (inds (j - shift)) else dest j

/-- One call of `run_step` (lines 724-746): gather port inputs
(`_read_LPU_input`, which writes `self.V` only inside the input-port
segment); then, unless this is the first call after `pre_run`, evaluate
every neuron model once, advance the buffer, evaluate every synapse model
once and step the cursors; the first call merely clears `first_step`.
(`_read_external_input` writes only the synapse-state array, never `V`.) -/
def runStep (cfg : StepConfig) (s : StepState) : TickTrace :=
  let v1 := if cfg.hasGpotInputPorts then
      setInds cfg.portData cfg.portInds cfg.numGpotPortInds cfg.gpotPortStart s.V
    else s.V
  if s.firstStep then
    { state := { firstStep := false, V := v1,
                 gpotCursor := s.gpotCursor, spikeCursor := s.spikeCursor },
      neuronEvals := [], synapseEvals := [], bufferAdvanced := false }
  else
    { state := { firstStep := false, V := cfg.evalV v1,
                 gpotCursor := circStep cfg.numGpot cfg.gpotDepth s.gpotCursor,
                 spikeCursor := circStep cfg.numSpike cfg.spikeDepth s.spikeCursor },
      neuronEvals := List.range cfg.numNeurons,
      synapseEvals := List.range cfg.numSynapses,
      bufferAdvanced := true }

/-! ### Gather/scatter dtype handling (lines 674-677, 834-847, 887-901, 1024-1054) -/

/-- Element dtypes occurring in the engine's arrays. -/
inductive Dtype where
  | float64
  | int32
  | float32
  | int64
deriving DecidableEq

/-- The dtype guard of `set_inds` (line 889): `assert src.dtype ==
dest.dtype` runs before the kernel is built or launched. -/
def setIndsDtypeCheck (src dest : Dtype) : Except String Unit :=
  if src = dest then Except.ok () else Except.error "assertion failed"

/-- The dtype handling of `_extract_projection_func` (lines 1024-1054): the
kernel source is typed from `state_var.dtype` alone and no comparison with
the destination array's dtype is ever made, so no mismatch is rejected. -/
def extractProjectionDtypeCheck (stateVar destVar : Dtype) : Except String Unit :=
  Except.ok ()

/-- Dtype of `self.V` (lines 839-841). -/
def VDtype : Dtype := Dtype.float64

/-- Dtype of `data_gpot`, the graded port array (lines 674-675). -/
def dataGpotDtype : Dtype := Dtype.float64

/-- Dtype of `self.spike_state` (lines 845-847). -/
def spikeStateDtype : Dtype := Dtype.int32

/-- Dtype of `data_spike`, the spiking port array (lines 676-677). -/
def dataSpikeDtype : Dtype := Dtype.int32

/-! ### External-input feeder (`_init_objects` lines 775-784,
`_read_external_input` lines 949-987) -/

/-- Feeder state: `self.file_pointer`, `self.frame_count`,
`self.frames_in_buffer`, the window `self.I_ext`, and `self.input_eof`;
`refillCount`/`readFrames` are bookkeeping for the claims (how often the
window was refilled from the file and which frames were copied into the
synapse-state array).  A frame is abstracted to one integer sample. -/
structure ExtInState where
  filePointer : Nat
  frameCount : Nat
  framesInBuffer : Nat
  iExt : List Int
  inputEof : Bool
  refillCount : Nat
  readFrames : List Int

/-- Feeder initialization (lines 373, 775-784): load the first
`_one_time_import` frames and advance the file pointer. -/
def initExtIn (file : List Int) (oneTimeImport : Nat) : ExtInState :=
  { filePointer := oneTimeImport
    frameCount := 0
    framesInBuffer := oneTimeImport
    iExt := file.take oneTimeImport
    inputEof := false
    refillCount := 0
    readFrames := [] }

/-- One call of `_read_external_input` (lines 949-987): copy the frame at
`frame_count` unless end-of-file was reached and the buffered frames are
exhausted; then, once `frame_count` reaches the window size and the file is
not exhausted, refill the window, zero-padding a short final read, and set
`input_eof` when the file pointer reaches the file length. -/
def readExternalInput (file : List Int) (w : Nat) (s : ExtInState) : ExtInState :=
  let s1 :=
    if s.inputEof = false ∨ s.frameCount < s.framesInBuffer then
      { s with frameCount := s.frameCount + 1,
               readFrames := s.readFrames ++ [s.iExt.getD s.frameCount 0] }
    else s
  if w ≤ s1.frameCount ∧ s1.inputEof = false then
    let inputLd := file.length
    let hExt :=
      if (inputLd : Int) - (s1.filePointer : Int) < (w : Int) then
        file.drop s1.filePointer
      else (file.drop s1.filePointer).take w
    let s2 :=
      if hExt.length = w then
        { s1 with iExt := hExt, filePointer := s1.filePointer + w,
                  frameCount := 0, refillCount := s1.refillCount + 1 }
      else
        { s1 with framesInBuffer := hExt.length,
                  iExt := hExt ++ List.replicate (w - hExt.length) 0,
                  filePointer := inputLd,
                  refillCount := s1.refillCount + 1 }
    if s2.filePointer = inputLd then { s2 with inputEof := true } else s2
  else s1

/-- A 25-frame external-current file with distinguishable nonzero samples. -/
def file25 : List Int := (List.range 25).map (fun i => (i : Int) + 1)

/-! ### Model instantiation (`_init_objects` lines 764-770,
`_instantiate_neuron` lines 1056-1100, `_instantiate_synapse` lines
1102-1128) -/

/-- The reserved input-port model tag (line 40). -/
def PORT_IN_GPOT : String := "port_in_gpot"

/-- The reserved input-port model tag (line 41). -/
def PORT_IN_SPK : String := "port_in_spk"

/-- Value of a decimal digit string, used by `intOfString?`. -/
def natValOfDigits (l : List Char) : Nat :=
  l.foldl (fun a c => 10 * a + (c.toNat - 48)) 0

/-- Semantics of Python's `int(t)` on a model-name string (success iff the
string is a possibly negated decimal literal), written over `String.data`
so that it evaluates inside the kernel. -/
def intOfString? (s : String) : Option Int :=
  match s.data with
  | '-' :: rest =>
    if rest ≠ [] ∧ rest.all Char.isDigit then
      some (-(natValOfDigits rest : Int))
    else none
  | l =>
    if l ≠ [] ∧ l.all Char.isDigit then some ((natValOfDigits l : Int)) else none

/-- Name resolution of `_instantiate_neuron` (lines 1070-1077): first
`self._neuron_names.index(t)`, then `int(t)`, otherwise log the error and
return `None`.  The payload is the index of the selected model class. -/
def instantiateNeuron (registry : List String) (t : String) : Option Int :=
  match registry.indexOf? t with
  | some ind => some (ind : Int)
  | none =>
    match intOfString? t with
    | some k => some k
    | none => none

/-- Name resolution of `_instantiate_synapse` (lines 1116-1123); identical
control flow against the synapse registry. -/
def instantiateSynapse (registry : List String) (t : String) : Option Int :=
  match registry.indexOf? t with
  | some ind => some (ind : Int)
  | none =>
    match intOfString? t with
    | some k => some k
    | none => none

/-- The list `self.neurons` built by `_init_objects` (lines 765-767): port
models are filtered out, but a failed instantiation's `None` result is kept
in the list. -/
def initNeurons (registry : List String) (models : List String) : List (Option Int) :=
  (models.filter (fun t => (t != PORT_IN_GPOT) && (t != PORT_IN_SPK))).map
    (instantiateNeuron registry)

/-- The list `self.synapses` built by `_init_objects` (lines 768-770). -/
def initSynapses (registry : List String) (models : List String) : List (Option Int) :=
  (models.filter (fun t => t != "pass")).map (instantiateSynapse registry)

/-- The neuron loop of `run_step` (lines 733-735): `neuron.update_I(...)`
on a `None` entry raises an `AttributeError`, so the tick fails unless every
entry is a real instance. -/
def stepNeuronList (l : List (Option Int)) : Except String Unit :=
  if l.all Option.isSome then Except.ok ()
  else Except.error "AttributeError: NoneType has no attribute update_I"

/-! ### Concrete inputs for counterexamples and witnesses -/

/-- Two graded-potential models whose original-ID ranges interleave; a valid
input (IDs unique, ascending within each model, as `graph_to_dicts`
produces via its global sort, lines 153-158). -/
def nlInterleaved : List NeuronModel :=
  [⟨"ModelA", [0, 5], false, [false, false]⟩,
   ⟨"ModelB", [2, 3], false, [false, false]⟩]

/-- The same two models in the opposite dictionary iteration order. -/
def nlInterleavedSwapped : List NeuronModel :=
  [⟨"ModelB", [2, 3], false, [false, false]⟩,
   ⟨"ModelA", [0, 5], false, [false, false]⟩]

/-- A mixed unit matching the worked example in the source comment
(lines 448-466): graded IDs 1, 4, 5 and spiking IDs 0, 2, 3. -/
def nlMixed : List NeuronModel :=
  [⟨"MorrisLecar", [1, 4, 5], false, [true, false, false]⟩,
   ⟨"LeakyIAF", [0, 2, 3], true, [false, false, true]⟩]

/-- One conductance-based spike-to-spike synapse model (`class = 0`) with a
5 ms delay. -/
def slDelayEx : List SynModel :=
  [⟨"AlphaSynapse", true, [⟨0, 0, true, 5, 0, PostRef.neuron 0⟩]⟩]

/-- The spec's end-to-end scenario for the step engine: two graded neurons,
no synapses, no ports, no delays. -/
def cfgTwoGpot : StepConfig :=
  { numNeurons := 2
    numSynapses := 0
    numGpot := 2
    gpotDepth := 1
    numSpike := 0
    spikeDepth := 1
    hasGpotInputPorts := false
    gpotPortStart := 0
    numGpotPortInds := 0
    portData := fun _ => 0
    portInds := fun i => i
    evalV := fun v => v }

/-- The state right after `pre_run` for the two-neuron scenario. -/
def sPrimed : StepState :=
  { firstStep := true, V := fun _ => 0, gpotCursor := 0, spikeCursor := 0 }

/-! ## Helper lemmas -/

/-- On a duplicate-free list, mapping every element to its index enumerates
exactly the positions `0..length-1` in order. -/
theorem map_indexOf_eq_range : ∀ {l : List Nat}, l.Nodup →
    l.map (fun a => l.indexOf a) = List.range l.length
  | [], _ => rfl
  | a :: t, h => by
    have ha : a ∉ t := (List.nodup_cons.mp h).1
    have ht : t.Nodup := (List.nodup_cons.mp h).2
    simp only [List.map_cons, List.indexOf_cons_self, List.length_cons]
    rw [List.range_succ_eq_map]
    congr 1
    rw [← map_indexOf_eq_range ht, List.map_map]
    apply List.map_congr_left
    intro b hb
    have hne : a ≠ b := fun e => ha (e ▸ hb)
    simp [List.indexOf_cons_ne _ hne, Function.comp]

/-- Elements of one member of a flattened duplicate-free list compare by
index in the flattening exactly as they compare inside their own block. -/
theorem indexOf_flatten_lt_iff {L : List (List Nat)} (hnd : L.flatten.Nodup)
    {l : List Nat} (hl : l ∈ L) {a b : Nat} (ha : a ∈ l) (hb : b ∈ l) :
    L.flatten.indexOf a < L.flatten.indexOf b ↔ l.indexOf a < l.indexOf b := by
  induction L with
  | nil => exact absurd hl (List.not_mem_nil _)
  | cons c T ih =>
    rw [List.flatten_cons] at hnd ⊢
    rcases List.mem_cons.mp hl with rfl | hlT
    · rw [List.indexOf_append_of_mem ha, List.indexOf_append_of_mem hb]
    · have hdisj := List.disjoint_of_nodup_append hnd
      have haT : a ∈ T.flatten := List.mem_flatten.mpr ⟨l, hlT, ha⟩
      have hbT : b ∈ T.flatten := List.mem_flatten.mpr ⟨l, hlT, hb⟩
      have hac : a ∉ c := fun hc => hdisj hc haT
      have hbc : b ∉ c := fun hc => hdisj hc hbT
      rw [List.indexOf_append_of_not_mem hac,
        List.indexOf_append_of_not_mem hbc, Nat.add_lt_add_iff_left]
      exact ih (List.nodup_append.mp hnd).2.1 hlT

/-- In a duplicate-free sorted list, index order agrees with value order. -/
theorem indexOf_lt_indexOf_of_sorted {l : List Nat}
    (hs : l.Sorted (· < ·)) {a b : Nat} (ha : a ∈ l) (hb : b ∈ l)
    (hab : a < b) : l.indexOf a < l.indexOf b := by
  by_contra hcon
  push_neg at hcon
  rcases lt_or_eq_of_le hcon with hlt | heq
  · have := hs.rel_get_of_lt
      (a := ⟨l.indexOf b, List.indexOf_lt_length.mpr hb⟩)
      (b := ⟨l.indexOf a, List.indexOf_lt_length.mpr ha⟩)
      (Fin.mk_lt_mk.mpr hlt)
    rw [List.indexOf_get, List.indexOf_get] at this
    omega
  · have := (List.indexOf_inj hb ha).mp heq
    omega

/-- Every id listed in the packed layout is one of the original ids. -/
theorem mem_nId_of_mem_idxList {nl : List NeuronModel} {x : Nat}
    (h : x ∈ idxList nl) : x ∈ nId nl := by
  simp only [idxList, gpotIdx, spikeIdx, nId, List.mem_append,
    List.mem_flatten, List.mem_map] at h ⊢
  rcases h with ⟨l, ⟨m, hm, rfl⟩, hx⟩ | ⟨l, ⟨m, hm, rfl⟩, hx⟩
  · exact ⟨m.ids, ⟨m, (List.mem_filter.mp hm).1, rfl⟩, hx⟩
  · exact ⟨m.ids, ⟨m, (List.mem_filter.mp hm).1, rfl⟩, hx⟩

/-- Every member of a list of naturals is bounded by its `foldr max 0`. -/
theorem le_foldr_max {l : List Nat} {x : Nat} (h : x ∈ l) :
    x ≤ l.foldr max 0 := by
  induction l with
  | nil => cases h
  | cons a t ih =>
    rcases List.mem_cons.mp h with rfl | h'
    · exact le_max_left _ _
    · exact le_trans (ih h') (le_max_right _ _)

/-- A duplicate-free list of naturals bounded by `M` has at most `M + 1`
elements. -/
theorem length_le_of_nodup_bounded {l : List Nat} {M : Nat} (h : l.Nodup)
    (hb : ∀ x ∈ l, x ≤ M) : l.length ≤ M + 1 := by
  classical
  have h1 : l.toFinset ⊆ Finset.range (M + 1) := by
    intro x hx
    exact Finset.mem_range.mpr (Nat.lt_succ_of_le (hb x (List.mem_toFinset.mp hx)))
  have h2 := Finset.card_le_card h1
  rwa [List.toFinset_card_of_nodup h, Finset.card_range] at h2

/-- The number of packed positions never exceeds `nid_max`. -/
theorem idxList_length_le_nidMax {nl : List NeuronModel}
    (h : (idxList nl).Nodup) : (idxList nl).length ≤ nidMax nl :=
  length_le_of_nodup_bounded h
    (fun _ hx => le_foldr_max (mem_nId_of_mem_idxList hx))

/-- Counting occurrences in `List.range`: each position below the bound
occurs exactly once. -/
theorem count_range_ite (n m : Nat) :
    (List.range m).count n = if n < m then 1 else 0 := by
  induction m with
  | zero => simp
  | succ m ih =>
    rw [List.range_succ, List.count_append, ih]
    rcases Nat.lt_trichotomy n m with h | rfl | h
    · have h' : n < m + 1 := by omega
      have hne : n ≠ m := by omega
      simp [h, h', List.count_cons, hne]
    · simp [List.count_cons]
    · have h1 : ¬ n < m := by omega
      have h2 : ¬ n < m + 1 := by omega
      have hne : n ≠ m := by omega
      simp [h1, h2, List.count_cons, hne]

/-- The running delay maximum never drops below a nonnegative start value. -/
theorem foldl_delayFoldStep_nonneg (p : SynRecord → Bool) :
    ∀ (sl : List SynModel) (acc : ℚ), 0 ≤ acc →
      0 ≤ sl.foldl (delayFoldStep p) acc := by
  intro sl
  induction sl with
  | nil => intro acc h; simpa using h
  | cons s t ih =>
    intro acc h
    rw [List.foldl_cons]
    apply ih
    unfold delayFoldStep
    by_cases hc :
        0 < ((s.syns.filter p).map SynRecord.delay).length ∧ s.hasDelay
    · rw [if_pos hc]; exact le_trans h (le_max_right _ _)
    · rw [if_neg hc]; exact h

/-- Rounding preserves nonnegativity. -/
theorem round_nonneg_of_nonneg {x : ℚ} (hx : 0 ≤ x) : 0 ≤ round x := by
  rw [round_eq]
  exact Int.le_floor.mpr (by push_cast; linarith)

/-! ## Claim theorems -/

/-- C1, counterexample: on a valid input (unique IDs, each model's IDs
ascending) with two graded-potential models whose ID ranges interleave, the
graded block of the packed layout is not ascending by original neuron ID —
id 5 is packed before id 2 — and swapping the dictionary iteration order of
the models does not make it ascending either. -/
theorem C1_counterexample :
    (idxList nlInterleaved).Nodup ∧
    (∀ m ∈ nlInterleaved, m.ids.Sorted (· < ·)) ∧
    gpotIdx nlInterleaved = [0, 5, 2, 3] ∧
    ¬ (gpotIdx nlInterleaved).Sorted (· ≤ ·) ∧
    ¬ (gpotIdx nlInterleavedSwapped).Sorted (· ≤ ·) ∧
    orderPos nlInterleaved 5 < orderPos nlInterleaved 2 := by decide

/-- C1, amended: for every valid input (unique IDs, each model's `id`
column ascending as `graph_to_dicts` guarantees), `order_dict`,
`gpot_order_dict` and `spike_order_dict` are bijections onto the packed
positions `0..N-1` (with `order_dict` inverse to the layout array `idx`),
the layout is the graded block followed by the spiking block, and packed
positions are ascending in original ID within each model — but not across
models of the same kind. -/
theorem C1_layout_bijection (nl : List NeuronModel)
    (hnd : (idxList nl).Nodup)
    (hsort : ∀ m ∈ nl, m.ids.Sorted (· < ·)) :
    ((idxList nl).map (orderPos nl) = List.range (idxList nl).length) ∧
    ((gpotIdx nl).map (gpotOrderPos nl) = List.range (gpotIdx nl).length) ∧
    ((spikeIdx nl).map (spikeOrderPos nl) = List.range (spikeIdx nl).length) ∧
    (∀ id ∈ idxList nl, ∃ hlt : orderPos nl id < (idxList nl).length,
        (idxList nl).get ⟨orderPos nl id, hlt⟩ = id) ∧
    (∀ id ∈ gpotIdx nl, orderPos nl id < (gpotIdx nl).length) ∧
    (∀ id ∈ spikeIdx nl,
        orderPos nl id = (gpotIdx nl).length + spikeOrderPos nl id) ∧
    (∀ m ∈ nl, ∀ a ∈ m.ids, ∀ b ∈ m.ids, a < b →
        orderPos nl a < orderPos nl b) := by
  have hg : (gpotIdx nl).Nodup := (List.nodup_append.mp hnd).1
  have hs : (spikeIdx nl).Nodup := (List.nodup_append.mp hnd).2.1
  have hdisj : (gpotIdx nl).Disjoint (spikeIdx nl) :=
    (List.nodup_append.mp hnd).2.2
  refine ⟨map_indexOf_eq_range hnd, map_indexOf_eq_range hg,
    map_indexOf_eq_range hs, ?_, ?_, ?_, ?_⟩
  · intro id hid
    exact ⟨List.indexOf_lt_length.mpr hid, List.indexOf_get _⟩
  · intro id hid
    unfold orderPos idxList
    rw [List.indexOf_append_of_mem hid]
    exact List.indexOf_lt_length.mpr hid
  · intro id hid
    have hng : id ∉ gpotIdx nl := fun hgm => hdisj hgm hid
    unfold orderPos idxList spikeOrderPos
    rw [List.indexOf_append_of_not_mem hng]
  · intro m hm a ha b hb hab
    by_cases hspk : m.spiking
    · have hblk : m.ids ∈ (nl.filter (fun m' => m'.spiking)).map NeuronModel.ids :=
        List.mem_map.mpr ⟨m, List.mem_filter.mpr ⟨hm, by simp [hspk]⟩, rfl⟩
      have haS : a ∈ spikeIdx nl := List.mem_flatten.mpr ⟨m.ids, hblk, ha⟩
      have hbS : b ∈ spikeIdx nl := List.mem_flatten.mpr ⟨m.ids, hblk, hb⟩
      have hnga : a ∉ gpotIdx nl := fun h' => hdisj h' haS
      have hngb : b ∉ gpotIdx nl := fun h' => hdisj h' hbS
      unfold orderPos idxList
      rw [List.indexOf_append_of_not_mem hnga,
        List.indexOf_append_of_not_mem hngb, Nat.add_lt_add_iff_left]
      exact (indexOf_flatten_lt_iff hs hblk ha hb).mpr
        (indexOf_lt_indexOf_of_sorted (hsort m hm) ha hb hab)
    · have hblk : m.ids ∈ (nl.filter (fun m' => !m'.spiking)).map NeuronModel.ids :=
        List.mem_map.mpr ⟨m, List.mem_filter.mpr ⟨hm, by simp [hspk]⟩, rfl⟩
      have haG : a ∈ gpotIdx nl := List.mem_flatten.mpr ⟨m.ids, hblk, ha⟩
      have hbG : b ∈ gpotIdx nl := List.mem_flatten.mpr ⟨m.ids, hblk, hb⟩
      unfold orderPos idxList
      rw [List.indexOf_append_of_mem haG, List.indexOf_append_of_mem hbG]
      exact (indexOf_flatten_lt_iff hg hblk ha hb).mpr
        (indexOf_lt_indexOf_of_sorted (hsort m hm) ha hb hab)

/-- C1, witness: the amended layout theorem applied to the mixed unit from
the source's own worked example. -/
theorem C1_layout_bijection_witness :
    (idxList nlMixed).Nodup ∧ (∀ m ∈ nlMixed, m.ids.Sorted (· < ·)) ∧
    (((idxList nlMixed).map (orderPos nlMixed) =
        List.range (idxList nlMixed).length) ∧
      ((gpotIdx nlMixed).map (gpotOrderPos nlMixed) =
        List.range (gpotIdx nlMixed).length) ∧
      ((spikeIdx nlMixed).map (spikeOrderPos nlMixed) =
        List.range (spikeIdx nlMixed).length) ∧
      (∀ id ∈ idxList nlMixed,
        ∃ hlt : orderPos nlMixed id < (idxList nlMixed).length,
          (idxList nlMixed).get ⟨orderPos nlMixed id, hlt⟩ = id) ∧
      (∀ id ∈ gpotIdx nlMixed, orderPos nlMixed id < (gpotIdx nlMixed).length) ∧
      (∀ id ∈ spikeIdx nlMixed,
        orderPos nlMixed id = (gpotIdx nlMixed).length + spikeOrderPos nlMixed id) ∧
      (∀ m ∈ nlMixed, ∀ a ∈ m.ids, ∀ b ∈ m.ids, a < b →
        orderPos nlMixed a < orderPos nlMixed b)) :=
  ⟨by decide, by decide, C1_layout_bijection nlMixed (by decide) (by decide)⟩

/-- C2: a synapse-targeting `post` resolves to the synapse's integer ID
plus `nid_max = max_neuron_id + 1`; every such address is at least
`nid_max` and collides with no neuron's packed position. -/
theorem C2_synapse_address_disjoint (nl : List NeuronModel) (sid : Nat)
    (hnd : (idxList nl).Nodup) :
    resolvePost nl (PostRef.synapse sid) = sid + nidMax nl ∧
    nidMax nl ≤ resolvePost nl (PostRef.synapse sid) ∧
    ∀ nid ∈ idxList nl,
      resolvePost nl (PostRef.neuron nid) ≠ resolvePost nl (PostRef.synapse sid) := by
  refine ⟨rfl, Nat.le_add_left _ _, ?_⟩
  intro nid hmem
  have h1 : orderPos nl nid < (idxList nl).length :=
    List.indexOf_lt_length.mpr hmem
  have h2 : (idxList nl).length ≤ nidMax nl := idxList_length_le_nidMax hnd
  show orderPos nl nid ≠ sid + nidMax nl
  omega

/-- C2, witness: the address-disjointness theorem applied to the mixed unit
with synapse ID 7. -/
theorem C2_synapse_address_disjoint_witness :
    (idxList nlMixed).Nodup ∧
    (resolvePost nlMixed (PostRef.synapse 7) = 7 + nidMax nlMixed ∧
      nidMax nlMixed ≤ resolvePost nlMixed (PostRef.synapse 7) ∧
      ∀ nid ∈ idxList nlMixed,
        resolvePost nlMixed (PostRef.neuron nid) ≠
          resolvePost nlMixed (PostRef.synapse 7)) :=
  ⟨by decide, C2_synapse_address_disjoint nlMixed 7 (by decide)⟩

/-- C5: with at least one neuron of the kind and a positive depth, each
`CircularArray.step` call advances the cursor modulo the depth, the cursor
stays inside `[0, depth)`, and `depth` consecutive calls return the cursor
to its initial value. -/
theorem C5_cursor_wraparound (numNeurons depth cursor : Nat)
    (hn : 0 < numNeurons) (hd : 0 < depth) (hc : cursor < depth) :
    circStep numNeurons depth cursor = (cursor + 1) % depth ∧
    circStep numNeurons depth cursor < depth ∧
    (circStep numNeurons depth)^[depth] cursor = cursor := by
  have hmod : ∀ c, c < depth →
      circStep numNeurons depth c = (c + 1) % depth := by
    intro c hcd
    unfold circStep
    rw [if_pos hn]
    by_cases hle : depth ≤ c + 1
    · have : c + 1 = depth := by omega
      rw [if_pos hle, this, Nat.mod_self]
    · rw [if_neg hle, Nat.mod_eq_of_lt (by omega)]
  have hiter : ∀ k c, c < depth →
      (circStep numNeurons depth)^[k] c = (c + k) % depth := by
    intro k
    induction k with
    | zero => intro c hcd; simp [Nat.mod_eq_of_lt hcd]
    | succ k ih =>
      intro c hcd
      rw [Function.iterate_succ_apply, hmod c hcd, ih _ (Nat.mod_lt _ hd)]
      rw [Nat.mod_add_mod]
      congr 1
      omega
  refine ⟨hmod cursor hc, ?_, ?_⟩
  · rw [hmod cursor hc]; exact Nat.mod_lt _ hd
  · rw [hiter depth cursor hc, Nat.add_mod_right, Nat.mod_eq_of_lt hc]

/-- C5, witness: the wraparound law at depth 3 from cursor 0 with one
neuron. -/
theorem C5_cursor_wraparound_witness :
    0 < 1 ∧ 0 < 3 ∧ 0 < 3 ∧
    (circStep 1 3 0 = (0 + 1) % 3 ∧ circStep 1 3 0 < 3 ∧
      (circStep 1 3)^[3] 0 = 0) :=
  ⟨by decide, by decide, by decide, C5_cursor_wraparound 1 3 0 (by decide)
    (by decide) (by decide)⟩

/-- C10: the synapse-state device array is allocated with length
`max(total_synapses + len(input_neuron_list), 1)`, hence is never empty,
including for a unit with no synapses and no external-input neurons. -/
theorem C10_synapse_state_never_empty (nl : List NeuronModel)
    (sl : List SynModel) :
    synapseStateLen nl sl = max (totalSynapses sl + numInputNeurons nl) 1 ∧
    0 < synapseStateLen nl sl ∧
    synapseStateLen [] [] = 1 :=
  ⟨rfl, Nat.lt_of_lt_of_le Nat.zero_lt_one (le_max_right _ 1), rfl⟩

/-- C3: for a unit without input ports, the first `run_step` after
`pre_run` evaluates no neuron or synapse model, does not advance the delay
buffer, and leaves the packed neuron state and both cursors unchanged; the
immediately following `run_step` evaluates each neuron model instance
exactly once and advances the buffer. -/
theorem C3_primed_tick_skips_updates (cfg : StepConfig) (s : StepState)
    (hfirst : s.firstStep = true) (hports : cfg.hasGpotInputPorts = false) :
    (runStep cfg s).neuronEvals = [] ∧
    (runStep cfg s).synapseEvals = [] ∧
    (runStep cfg s).bufferAdvanced = false ∧
    (runStep cfg s).state.V = s.V ∧
    (runStep cfg s).state.gpotCursor = s.gpotCursor ∧
    (runStep cfg s).state.spikeCursor = s.spikeCursor ∧
    (∀ n, ((runStep cfg ((runStep cfg s).state)).neuronEvals).count n =
        if n < cfg.numNeurons then 1 else 0) ∧
    (runStep cfg ((runStep cfg s).state)).bufferAdvanced = true := by
  have h1 : runStep cfg s =
      { state := { firstStep := false, V := s.V,
                   gpotCursor := s.gpotCursor, spikeCursor := s.spikeCursor },
        neuronEvals := [], synapseEvals := [], bufferAdvanced := false } := by
    unfold runStep
    rw [hports, hfirst]
    simp
  have h2 : (runStep cfg ((runStep cfg s).state)).neuronEvals =
      List.range cfg.numNeurons := by
    rw [h1]
    unfold runStep
    rw [hports]
    simp
  have h3 : (runStep cfg ((runStep cfg s).state)).bufferAdvanced = true := by
    rw [h1]
    unfold runStep
    rw [hports]
    simp
  refine ⟨by rw [h1], by rw [h1], by rw [h1], by rw [h1], by rw [h1],
    by rw [h1], ?_, h3⟩
  intro n
  rw [h2, count_range_ite]

/-- C3, witness: the two-tick behaviour on the spec's scenario of two
graded neurons, no synapses and no ports. -/
theorem C3_primed_tick_skips_updates_witness :
    sPrimed.firstStep = true ∧ cfgTwoGpot.hasGpotInputPorts = false ∧
    ((runStep cfgTwoGpot sPrimed).neuronEvals = [] ∧
      (runStep cfgTwoGpot sPrimed).synapseEvals = [] ∧
      (runStep cfgTwoGpot sPrimed).bufferAdvanced = false ∧
      (runStep cfgTwoGpot sPrimed).state.V = sPrimed.V ∧
      (runStep cfgTwoGpot sPrimed).state.gpotCursor = sPrimed.gpotCursor ∧
      (runStep cfgTwoGpot sPrimed).state.spikeCursor = sPrimed.spikeCursor ∧
      (∀ n, ((runStep cfgTwoGpot
          ((runStep cfgTwoGpot sPrimed).state)).neuronEvals).count n =
          if n < cfgTwoGpot.numNeurons then 1 else 0) ∧
      (runStep cfgTwoGpot
        ((runStep cfgTwoGpot sPrimed).state)).bufferAdvanced = true) :=
  ⟨rfl, rfl, C3_primed_tick_skips_updates cfgTwoGpot sPrimed rfl rfl⟩

/-- C4, counterexample: a single conductance-based spike-to-spike synapse
(`class = 0`) with a 5 ms delay at `dt = 1 ms`.  The code sizes the graded
buffer from it (depth 6) and leaves the spiking buffer at depth 1, whereas
the claim's kind-based partition requires the spiking depth to be
`round(5/1) + 1 = 6`. -/
theorem C4_counterexample :
    spikeDelaySteps slDelayEx (1 / 1000) = 1 ∧
    gpotDelaySteps slDelayEx (1 / 1000) = 6 ∧
    claimSpikeDepth slDelayEx (1 / 1000) = 6 ∧
    spikeDelaySteps slDelayEx (1 / 1000) ≠ claimSpikeDepth slDelayEx (1 / 1000) := by
  have h1 : spikeDelayMs slDelayEx = 0 := by decide
  have h2 : gpotDelayMs slDelayEx = 5 := by decide
  have h3 : claimSpikeMaxDelayMs slDelayEx = 5 := by decide
  have e1 : spikeDelaySteps slDelayEx (1 / 1000) = 1 := by
    unfold spikeDelaySteps
    rw [h1]
    norm_num
  have e2 : gpotDelaySteps slDelayEx (1 / 1000) = 6 := by
    unfold gpotDelaySteps
    rw [h2, round_eq]
    norm_num
  have e3 : claimSpikeDepth slDelayEx (1 / 1000) = 6 := by
    unfold claimSpikeDepth
    rw [h3, round_eq]
    norm_num
  exact ⟨e1, e2, e3, by rw [e1, e3]; decide⟩

/-- C4, amended: each buffer depth equals `round(max_delay_ms/dt) + 1` and
is at least 1, where the graded-side maximum ranges over the
conductance-based synapses and the spiking-side maximum over the
current-based (non-conductance) synapses — the partition is by the
`conductance` flag, not by the synapses' spiking/graded class. -/
theorem C4_depth_formula (sl : List SynModel) (dt : ℚ) (hdt : 0 < dt) :
    gpotDelaySteps sl dt = round (gpotDelayMs sl * (1 / 1000) / dt) + 1 ∧
    spikeDelaySteps sl dt = round (spikeDelayMs sl * (1 / 1000) / dt) + 1 ∧
    1 ≤ gpotDelaySteps sl dt ∧ 1 ≤ spikeDelaySteps sl dt := by
  have hg : 0 ≤ gpotDelayMs sl := foldl_delayFoldStep_nonneg _ sl 0 le_rfl
  have hs : 0 ≤ spikeDelayMs sl := foldl_delayFoldStep_nonneg _ sl 0 le_rfl
  have h1 : 0 ≤ round (gpotDelayMs sl * (1 / 1000) / dt) :=
    round_nonneg_of_nonneg
      (div_nonneg (mul_nonneg hg (by norm_num)) (le_of_lt hdt))
  have h2 : 0 ≤ round (spikeDelayMs sl * (1 / 1000) / dt) :=
    round_nonneg_of_nonneg
      (div_nonneg (mul_nonneg hs (by norm_num)) (le_of_lt hdt))
  unfold gpotDelaySteps spikeDelaySteps
  exact ⟨rfl, rfl, by omega, by omega⟩

/-- C4, witness: the depth formula at `dt = 1 ms` on the one-synapse
example. -/
theorem C4_depth_formula_witness :
    0 < (1 / 1000 : ℚ) ∧
    (gpotDelaySteps slDelayEx (1 / 1000) =
        round (gpotDelayMs slDelayEx * (1 / 1000) / (1 / 1000)) + 1 ∧
      spikeDelaySteps slDelayEx (1 / 1000) =
        round (spikeDelayMs slDelayEx * (1 / 1000) / (1 / 1000)) + 1 ∧
      1 ≤ gpotDelaySteps slDelayEx (1 / 1000) ∧
      1 ≤ spikeDelaySteps slDelayEx (1 / 1000)) :=
  ⟨by norm_num, C4_depth_formula slDelayEx (1 / 1000) (by norm_num)⟩

/-- C7, counterexample: the extract-projection path performs no dtype
comparison, so a float64-to-int32 mismatch is not rejected before the
kernel launch, contrary to the claim that both operations fail. -/
theorem C7_counterexample :
    Dtype.float64 ≠ Dtype.int32 ∧
    extractProjectionDtypeCheck Dtype.float64 Dtype.int32 = Except.ok () :=
  ⟨by decide, rfl⟩

/-- C7, amended: the gather (`set_inds`) rejects any dtype mismatch via an
assertion before its kernel is built, while the scatter
(extract-projection) performs no dtype check at all; within the program the
scatter's operands always agree by construction (`V`/graded port data are
float64, `spike_state`/spiking port data are int32). -/
theorem C7_dtype_guards (src dest : Dtype) :
    (setIndsDtypeCheck src dest = Except.ok () ↔ src = dest) ∧
    extractProjectionDtypeCheck src dest = Except.ok () ∧
    VDtype = dataGpotDtype ∧ spikeStateDtype = dataSpikeDtype := by
  refine ⟨⟨fun h => ?_, fun h => ?_⟩, rfl, rfl, rfl⟩
  · by_contra hne
    unfold setIndsDtypeCheck at h
    rw [if_neg hne] at h
    exact Except.noConfusion h
  · unfold setIndsDtypeCheck
    rw [if_pos h]

set_option maxRecDepth 4000 in
/-- C8: with a 25-frame file and the default 10-frame window, after 20
reads exactly two refills have happened, the final window holds the 5
remaining frames followed by 5 zero frames, the end-of-stream flag is set,
and the 20 reads delivered frames 1..20. -/
theorem C8_twenty_reads :
    (Nat.iterate (readExternalInput file25 10) 20 (initExtIn file25 10)).refillCount = 2 ∧
    (Nat.iterate (readExternalInput file25 10) 20 (initExtIn file25 10)).inputEof = true ∧
    (Nat.iterate (readExternalInput file25 10) 20 (initExtIn file25 10)).iExt =
      [21, 22, 23, 24, 25, 0, 0, 0, 0, 0] ∧
    (Nat.iterate (readExternalInput file25 10) 20 (initExtIn file25 10)).readFrames =
      (List.range 20).map (fun i => (i : Int) + 1) := by decide

/-- C9, counterexample: instantiating a model name that is neither
registered nor numeric yields `None`, but `_init_objects` keeps the `None`
in `self.neurons` — the active list is `[None]`, not `[]` — and the next
evaluated tick fails on it instead of proceeding without it. -/
theorem C9_counterexample :
    instantiateNeuron ["MorrisLecar", "LeakyIAF"] "HodgkinHuxley" = none ∧
    initNeurons ["MorrisLecar", "LeakyIAF"] ["HodgkinHuxley"] = [none] ∧
    stepNeuronList (initNeurons ["MorrisLecar", "LeakyIAF"] ["HodgkinHuxley"]) =
      Except.error "AttributeError: NoneType has no attribute update_I" :=
  ⟨by decide, by decide, rfl⟩

/-- C9, amended: an unresolvable model name is logged and instantiated as
`None` (construction does not abort), but the `None` placeholder is
retained in the active neuron list, so a subsequent model-evaluation tick
over that list fails rather than proceeding without the instance. -/
theorem C9_none_retained (registry names : List String) (t : String)
    (h1 : registry.indexOf? t = none) (h2 : intOfString? t = none)
    (h3 : t ∈ names.filter (fun u => (u != PORT_IN_GPOT) && (u != PORT_IN_SPK))) :
    instantiateNeuron registry t = none ∧
    none ∈ initNeurons registry names ∧
    stepNeuronList (initNeurons registry names) ≠ Except.ok () := by
  have hinst : instantiateNeuron registry t = none := by
    unfold instantiateNeuron
    rw [h1, h2]
  have hmem : none ∈ initNeurons registry names :=
    List.mem_map.mpr ⟨t, h3, hinst⟩
  refine ⟨hinst, hmem, ?_⟩
  intro hok
  unfold stepNeuronList at hok
  by_cases hall : (initNeurons registry names).all Option.isSome = true
  · have := List.all_eq_true.mp hall none hmem
    simp at this
  · rw [if_neg hall] at hok
    exact Except.noConfusion hok

/-- C9, witness: the retained-`None` behaviour at a concrete unknown model
name. -/
theorem C9_none_retained_witness :
    (["MorrisLecar"].indexOf? "Unknown73" = none) ∧
    (intOfString? "Unknown73" = none) ∧
    ("Unknown73" ∈ ["Unknown73"].filter
        (fun u => (u != PORT_IN_GPOT) && (u != PORT_IN_SPK))) ∧
    (instantiateNeuron ["MorrisLecar"] "Unknown73" = none ∧
      none ∈ initNeurons ["MorrisLecar"] ["Unknown73"] ∧
      stepNeuronList (initNeurons ["MorrisLecar"] ["Unknown73"]) ≠ Except.ok ()) :=
  ⟨by decide, by decide, by decide,
    C9_none_retained ["MorrisLecar"] ["Unknown73"] "Unknown73" (by decide)
      (by decide) (by decide)⟩

end LPU
